import Mathlib

/-!
Verification of the asset-pipeline core of `bemani/utils/afputils.py`:
the bytecode flattener (`write_bytecode`), the transform planner and
export planner of the `render` action, and the container normalizer that
loads TXP2 containers into the renderer's asset namespace.

Numeric code (Python floats) is embedded over exact rationals; Python's
insertion-ordered `dict` is embedded as an association list whose update
keeps the position of an existing key while replacing its value; Python's
floor division `//` is embedded as `Int.fdiv`.  Images are opaque values
supplied by the external codec: we record crop invocations symbolically.
-/

namespace AfpUtils

/-! ## Data model: bytecode, frames, tags (from `bemani.format.afp`) -/

/-- A raw bytecode blob.  Decompilation is delegated to the external
decompiler, so a blob is represented directly by its decompiled text. -/
abbrev ByteCode := String

/-- `decompile` of the external bytecode decompiler: on our representation
it is the stored text itself. -/
def decompile (b : ByteCode) : String := b

/-- An imported tag reference inside a frame; it may carry `init_bytecode`. -/
structure ImportedTag where
  init_bytecode : Option ByteCode
  deriving DecidableEq

/-- A frame of a movie clip: an ordered sequence of imported tag references. -/
structure Frame where
  imported_tags : List ImportedTag
  deriving DecidableEq

mutual
/-- The tag variants relevant to the flattener: `AP2DoActionTag`,
`AP2PlaceObjectTag` (with its insertion-ordered `triggers` mapping),
`AP2DefineSpriteTag` (holding a nested clip: labels, frames, tags),
and any other tag (ignored). -/
inductive Tag where
  | doAction (bytecode : ByteCode)
  | placeObject (triggers : List (String × List ByteCode))
  | defineSprite (labels : List (String × Nat)) (frames : List Frame) (tags : TagList)
  | other

/-- A tag sequence, as a mutual inductive with `Tag` so that all
recursion over the tag tree is structural. -/
inductive TagList where
  | nil
  | cons (t : Tag) (ts : TagList)
end

/-- A movie clip / SWF object: exported name, insertion-ordered label
table, frames and tag tree. -/
structure SWF where
  exported_name : String
  labels : List (String × Nat)
  frames : List Frame
  tags : TagList

/-! ## Insertion-ordered dictionaries (Python `dict` semantics) -/

/-- Setting one key of an insertion-ordered dictionary: an existing key
keeps its position and gets the new value; a fresh key is appended. -/
def dictInsert (d : List (String × Nat)) (k : String) (v : Nat) : List (String × Nat) :=
  if d.any (fun p => p.1 == k) then d.map (fun p => if p.1 == k then (k, v) else p)
  else d ++ [(k, v)]

/-- Python's `dict.update`: set every key of `new`, in order. -/
def dictUpdate (d : List (String × Nat)) (new : List (String × Nat)) : List (String × Nat) :=
  new.foldl (fun acc p => dictInsert acc p.1 p.2) d

/-! ## The bytecode flattener (`write_bytecode`, lines 17-64) -/

/-- Inner loop of `bytecode_from_frames`: append the decompiled
`init_bytecode` of each imported tag reference that carries one. -/
def bytecode_from_frame_tags : List ImportedTag → List String → List String
  | [], buff => buff
  | t :: ts, buff =>
    match t.init_bytecode with
    | some bc => bytecode_from_frame_tags ts (buff ++ [decompile bc])
    | none => bytecode_from_frame_tags ts buff

/-- `bytecode_from_frames`: visit the frames in order, appending blocks
for imported tags carrying init bytecode. -/
def bytecode_from_frames : List Frame → List String → List String
  | [], buff => buff
  | f :: fs, buff => bytecode_from_frames fs (bytecode_from_frame_tags f.imported_tags buff)

/-- Blocks contributed by one `AP2PlaceObjectTag`: iterate the `triggers`
mapping in insertion order, then each event's bytecode list in order. -/
def triggersBlocks (triggers : List (String × List ByteCode)) : List String :=
  triggers.flatMap (fun p => p.2.map decompile)

mutual
/-- The action of one tag inside `bytecode_from_tags`.  The state is the
pair `(buff, lut)` of the output block buffer and the label table, both
mutated in place by the Python code. -/
def tagStep : Tag → List String × List (String × Nat) → List String × List (String × Nat)
  | Tag.doAction bc, (buff, lut) => (buff ++ [decompile bc], lut)
  | Tag.placeObject triggers, (buff, lut) => (buff ++ triggersBlocks triggers, lut)
  | Tag.defineSprite labels frames tags, (buff, lut) =>
      bytecode_from_tags tags (bytecode_from_frames frames buff, dictUpdate lut labels)
  | Tag.other, st => st

/-- The loop of `bytecode_from_tags` over a tag list (lines 31-42). -/
def bytecode_from_tags : TagList → List String × List (String × Nat) → List String × List (String × Nat)
  | TagList.nil, st => st
  | TagList.cons t ts, st => bytecode_from_tags ts (tagStep t st)
end

/-- Python `repr` of a simple label name (single-quoted). -/
def pyRepr (s : String) : String := "\x27" ++ s ++ "\x27"

/-- The synthesized `FRAME_LUT` declaration block put at the top of the
program when the merged label table is non-empty (lines 49-58). -/
def frameLutBlock (lut : List (String × Nat)) : String :=
  String.intercalate "\n"
    (["// Defined frame labels from SWF container, as used for frame lookups.",
      "FRAME_LUT = \x7b"] ++
     lut.map (fun p => "    " ++ pyRepr p.1 ++ ": " ++ toString p.2 ++ ",") ++
     ["\x7d;"])

/-- `write_bytecode` (file output aside): returns the final program text
and the merged label table.  Mirrors lines 22-64: start with empty buffer
and label table, merge `swf.labels`, visit frames then tags, prepend the
`FRAME_LUT` block when the label table is non-empty, and join the blocks
with one blank line between consecutive blocks. -/
def write_bytecode (swf : SWF) : String × List (String × Nat) :=
  let lut := dictUpdate [] swf.labels
  let buff := bytecode_from_frames swf.frames []
  let st := bytecode_from_tags swf.tags (buff, lut)
  let buff2 := if st.2.isEmpty then st.1 else frameLutBlock st.2 :: st.1
  (String.intercalate "\n\n" buff2, st.2)

/-! ### Specification-shaped flattener (the spec's steps 2-6), used to
characterize the accumulator-passing code above. -/

/-- Blocks of one frame, directly (no accumulator). -/
def frameTagBlocks (ts : List ImportedTag) : List String :=
  ts.filterMap (fun t => t.init_bytecode.map decompile)

/-- Blocks of a frame sequence, directly. -/
def frameBlocks (fs : List Frame) : List String :=
  fs.flatMap (fun f => frameTagBlocks f.imported_tags)

mutual
/-- Blocks contributed by one tag, directly: a `DoAction` is one block,
a `PlaceObject` one block per trigger bytecode entry, a `DefineSprite`
contributes its nested frames' blocks then its nested tags' blocks in
place. -/
def tagBlocksT : Tag → List String
  | Tag.doAction bc => [decompile bc]
  | Tag.placeObject triggers => triggersBlocks triggers
  | Tag.defineSprite _ frames tags => frameBlocks frames ++ tagBlocksL tags
  | Tag.other => []

/-- Blocks contributed by a tag list, directly. -/
def tagBlocksL : TagList → List String
  | TagList.nil => []
  | TagList.cons t ts => tagBlocksT t ++ tagBlocksL ts
end

mutual
/-- Label-table evolution of one tag: only `DefineSprite` merges labels
(its own, then recursively its nested tags'). -/
def tagLabelsT (lut : List (String × Nat)) : Tag → List (String × Nat)
  | Tag.doAction _ => lut
  | Tag.placeObject _ => lut
  | Tag.defineSprite labels _ tags => tagLabelsL (dictUpdate lut labels) tags
  | Tag.other => lut

/-- Label-table evolution of a tag list. -/
def tagLabelsL (lut : List (String × Nat)) : TagList → List (String × Nat)
  | TagList.nil => lut
  | TagList.cons t ts => tagLabelsL (tagLabelsT lut t) ts
end

/-- The merged label table of a whole clip: the clip's own labels merged
into an empty table, then every nested sprite's labels in visit order. -/
def mergedLabels (swf : SWF) : List (String × Nat) :=
  tagLabelsL (dictUpdate [] swf.labels) swf.tags

/-- `true` iff a tag list contains no `DefineSprite` tag. -/
def sprite_free : TagList → Bool
  | TagList.nil => true
  | TagList.cons (Tag.defineSprite _ _ _) _ => false
  | TagList.cons _ ts => sprite_free ts

/-! ## Transform planner (`render` action, lines 740-779) -/

/-- The affine view matrix (`Matrix` of `bemani.format.afp`), over exact
rationals. -/
structure Matrix where
  a : ℚ
  b : ℚ
  c : ℚ
  d : ℚ
  tx : ℚ
  ty : ℚ
  deriving DecidableEq

/-- The forced-aspect-ratio adjustment (lines 745-766): validate the
ratio terms, and when the natural ratio differs from the forced one by
more than 1e-4, compute both candidates, raise on the impossible
both-smaller / both-larger cases, and stretch the axis whose candidate
is larger. -/
def adjustAspect (w h rx ry : ℚ) : Except String (ℚ × ℚ) :=
  if rx ≤ 0 ∨ ry ≤ 0 then Except.error "Ratio must only include positive numbers!"
  else
    let actual_ratio := rx / ry
    let swf_ratio := w / h
    if |swf_ratio - actual_ratio| > 1 / 10000 then
      let new_width := actual_ratio * h
      let new_height := w / actual_ratio
      if new_width < w ∧ new_height < h then Except.error "Impossible aspect ratio!"
      else if new_width > w ∧ new_height > h then Except.error "Impossible aspect ratio!"
      else if new_width > w then Except.ok (new_width, h)
      else Except.ok (w, new_height)
    else Except.ok (w, h)

/-- The whole transform plan (lines 740-779): optional aspect adjustment,
then the scale factors, then the view matrix `a = requestedW / naturalW`,
`d = requestedH / naturalH`, `b = c = tx = ty = 0`. -/
def planTransform (w h : ℚ) (force_aspect_ratio : Option (ℚ × ℚ))
    (scale_width scale_height : ℚ) : Except String Matrix :=
  match (match force_aspect_ratio with
         | none => Except.ok (w, h)
         | some (rx, ry) => adjustAspect w h rx ry) with
  | Except.error e => Except.error e
  | Except.ok (rw2, rh2) =>
      Except.ok ⟨rw2 * scale_width / w, 0, 0, rh2 * scale_height / h, 0, 0⟩

/-! ## Container normalizer (`render` action, lines 613-656) -/

/-- A GE2D shape, opaque to this core: represented by its raw data. -/
abbrev Shape := String

/-- An image of the external codec: either a decoded texture sheet or a
crop of another image.  `crop` invocations are recorded symbolically. -/
inductive Image where
  | decoded (name : String)
  | cropped (img : Image) (left top right bottom : Int)
  deriving DecidableEq

/-- A texture sheet: not every texture has a decoded image. -/
structure Texture where
  name : String
  img : Option Image
  deriving DecidableEq

/-- A region entry: a sub-rectangle of a texture sheet, in coordinates at
twice the logical pixel grid, plus the index of its texture. -/
structure Region where
  left : Int
  top : Int
  right : Int
  bottom : Int
  textureno : Nat
  deriving DecidableEq

/-- Python floor division by two (`// 2`), used for every halving of
region coordinates. -/
def halfCoord (x : Int) : Int := Int.fdiv x 2

/-- The crop rectangle of a region: each coordinate halved with `// 2`
(lines 497, 640). -/
def spriteCropRect (region : Region) : Int × Int × Int × Int :=
  (halfCoord region.left, halfCoord region.top, halfCoord region.right, halfCoord region.bottom)

/-- `Image.crop` of the external codec, recorded symbolically. -/
def Image.crop (img : Image) (rect : Int × Int × Int × Int) : Image :=
  Image.cropped img rect.1 rect.2.1 rect.2.2.1 rect.2.2.2

/-- A parsed TXP2 container: the index-addressable maps used by the
render-path loader. -/
structure TXP2File where
  shapemap : List String
  shapes : List Shape
  regionmap : List String
  texture_to_region : List Region
  texturemap : List String
  textures : List Texture
  swfmap : List String
  swfdata : List SWF

/-- The renderer's asset namespace, as a record of registrations
(`add_shape` / `add_texture` / `add_swf` events in order; lookups take
the last registration of a name). -/
structure AssetNamespace where
  shapes : List (String × Shape)
  textures : List (String × Image)
  swfs : List (String × SWF)

def AssetNamespace.add_shape (ns : AssetNamespace) (name : String) (s : Shape) : AssetNamespace :=
  { ns with shapes := ns.shapes ++ [(name, s)] }

def AssetNamespace.add_texture (ns : AssetNamespace) (name : String) (img : Image) : AssetNamespace :=
  { ns with textures := ns.textures ++ [(name, img)] }

def AssetNamespace.add_swf (ns : AssetNamespace) (name : String) (swf : SWF) : AssetNamespace :=
  { ns with swfs := ns.swfs ++ [(name, swf)] }

def emptyNamespace : AssetNamespace := ⟨[], [], []⟩

/-- Errors of the TXP2 loading pass: the explicit out-of-bounds region
check (line 626), the missing-texture lookup (line 636), and Python
`IndexError` from a direct out-of-range list subscript. -/
inductive NormError where
  | outOfBoundsRegion (i : Nat)
  | textureNotFound (name : String)
  | indexError
  deriving DecidableEq

/-- Shape-loading loop (lines 614-619): `shape = afpfile.shapes[i]`,
`renderer.add_shape(name, shape)`. -/
def load_shapes_go (f : TXP2File) :
    List (Nat × String) → AssetNamespace → AssetNamespace × Option NormError
  | [], ns => (ns, none)
  | (i, name) :: rest, ns =>
    match f.shapes.get? i with
    | none => (ns, some NormError.indexError)
    | some shape => load_shapes_go f rest (ns.add_shape name shape)

def load_shapes (f : TXP2File) (ns : AssetNamespace) : AssetNamespace × Option NormError :=
  load_shapes_go f f.shapemap.enum ns

/-- The `sheets` cache (lines 630-636): look the texture name up in the
cache, else find the first texture of that name and cache it; `none` when
no texture of that name exists. -/
def ensure_sheet (f : TXP2File) (sheets : List (String × Texture)) (texturename : String) :
    Option (Texture × List (String × Texture)) :=
  match sheets.find? (fun p => p.1 == texturename) with
  | some p => some (p.2, sheets)
  | none =>
    match f.textures.find? (fun tex => tex.name == texturename) with
    | some tex => some (tex, sheets ++ [(texturename, tex)])
    | none => none

/-- Region-loading loop (lines 624-647): bounds-check the entry index
against `texture_to_region`, resolve the region and its texture name,
ensure the texture sheet, and if the sheet has a decoded image register
the crop of the halved rectangle under the region's logical name; a
sheet with no decoded image is skipped with a diagnostic. -/
def load_regions_go (f : TXP2File) :
    List (Nat × String) → AssetNamespace → List (String × Texture) →
      AssetNamespace × Option NormError
  | [], ns, _ => (ns, none)
  | (i, name) :: rest, ns, sheets =>
    if f.texture_to_region.length ≤ i then (ns, some (NormError.outOfBoundsRegion i))
    else
      match f.texture_to_region.get? i with
      | none => (ns, some (NormError.outOfBoundsRegion i))
      | some region =>
        match f.texturemap.get? region.textureno with
        | none => (ns, some NormError.indexError)
        | some texturename =>
          match ensure_sheet f sheets texturename with
          | none => (ns, some (NormError.textureNotFound texturename))
          | some (tex, sheets2) =>
            match tex.img with
            | some im =>
                load_regions_go f rest
                  (ns.add_texture name (im.crop (spriteCropRect region))) sheets2
            | none => load_regions_go f rest ns sheets2

def load_regions (f : TXP2File) (ns : AssetNamespace) : AssetNamespace × Option NormError :=
  load_regions_go f f.regionmap.enum ns []

/-- SWF-loading loop (lines 650-655): `swf = afpfile.swfdata[i]`,
`renderer.add_swf(name, swf)`. -/
def load_swfs_go (f : TXP2File) :
    List (Nat × String) → AssetNamespace → AssetNamespace × Option NormError
  | [], ns => (ns, none)
  | (i, name) :: rest, ns =>
    match f.swfdata.get? i with
    | none => (ns, some NormError.indexError)
    | some swf => load_swfs_go f rest (ns.add_swf name swf)

def load_swfs (f : TXP2File) (ns : AssetNamespace) : AssetNamespace × Option NormError :=
  load_swfs_go f f.swfmap.enum ns

/-- Sequencing of loading phases: a raised error aborts the remaining
phases, keeping the registrations made so far; otherwise the next phase
continues from the accumulated namespace. -/
def andThen (r : AssetNamespace × Option NormError)
    (k : AssetNamespace → AssetNamespace × Option NormError) :
    AssetNamespace × Option NormError :=
  match r.2 with
  | some _ => r
  | none => k r.1

/-- Normalization of one TXP2 container into the asset namespace:
shapes, then regions, then movie clips. -/
def loadTXP2 (f : TXP2File) (ns : AssetNamespace) : AssetNamespace × Option NormError :=
  andThen (load_shapes f ns) (fun ns1 =>
    andThen (load_regions f ns1) (fun ns2 => load_swfs f ns2))

/-! ## Export planner (`render` action, lines 786-813) -/

/-- An output artifact: one animated file holding all frames, or one
still file per frame. -/
inductive Artifact where
  | animation (target : String) (frames : List Image) (duration : Nat)
  | still (target : String) (frame : Image)
  deriving DecidableEq

/-- Zero-padding width for per-frame filenames:
`int(math.log10(frames)) + 1` (line 805). -/
def padWidth (frames : Nat) : Nat := Nat.log 10 frames + 1

/-- Python's `f"{i:0w}"`: the decimal digits of `i`, left-padded with
zeros to width `w`. -/
def zeroPad (i width : Nat) : String :=
  let s := toString i
  String.mk (List.replicate (width - s.length) '0') ++ s

/-- The export step (lines 786-813): zero frames raise; a multi-frame
format (GIF/WEBP) writes one animated artifact holding every frame in
order with the per-frame duration; otherwise one still artifact per
frame, named by the output's base name, a dash, the zero-padded frame
index, and the extension. -/
def exportFrames (output fmt : String) (duration : Nat) (images : List Image) :
    Except String (List Artifact) :=
  if images.length = 0 then Except.error "Did not render any frames!"
  else if fmt = "GIF" ∨ fmt = "WEBP" then
    Except.ok [Artifact.animation output images duration]
  else
    let filename := output.dropRight 4
    let ext := output.takeRight 4
    let frames := images.length
    if 0 < frames then
      Except.ok (images.enum.map (fun p =>
        Artifact.still (filename ++ "-" ++ zeroPad p.1 (padWidth frames) ++ ext) p.2))
    else Except.ok []

/-! ## Flattener lemmas -/

theorem bytecode_from_frame_tags_eq (ts : List ImportedTag) :
    ∀ buff, bytecode_from_frame_tags ts buff = buff ++ frameTagBlocks ts := by
  induction ts with
  | nil => intro buff; simp [bytecode_from_frame_tags, frameTagBlocks]
  | cons t ts ih =>
    intro buff
    cases h : t.init_bytecode with
    | none => simp [bytecode_from_frame_tags, frameTagBlocks, h, ih]
    | some bc => simp [bytecode_from_frame_tags, frameTagBlocks, h, ih]

theorem bytecode_from_frames_eq (fs : List Frame) :
    ∀ buff, bytecode_from_frames fs buff = buff ++ frameBlocks fs := by
  induction fs with
  | nil => intro buff; simp [bytecode_from_frames, frameBlocks]
  | cons f fs ih =>
    intro buff
    simp [bytecode_from_frames, frameBlocks, ih, bytecode_from_frame_tags_eq]

theorem bytecode_from_tags_eq (ts : TagList) (st : List String × List (String × Nat)) :
    bytecode_from_tags ts st = (st.1 ++ tagBlocksL ts, tagLabelsL st.2 ts) := by
  refine @bytecode_from_tags.induct
    (fun t st => tagStep t st = (st.1 ++ tagBlocksT t, tagLabelsT st.2 t))
    (fun ts st => bytecode_from_tags ts st = (st.1 ++ tagBlocksL ts, tagLabelsL st.2 ts))
    ?_ ?_ ?_ ?_ ?_ ?_ ts st
  · intro bc buff lut; simp [tagStep, tagBlocksT, tagLabelsT]
  · intro triggers buff lut; simp [tagStep, tagBlocksT, tagLabelsT]
  · intro labels frames tags buff lut ih
    simp only [tagStep, tagBlocksT, tagLabelsT]
    rw [ih]
    simp [bytecode_from_frames_eq]
  · intro st; simp [tagStep, tagBlocksT, tagLabelsT]
  · intro st; simp [bytecode_from_tags, tagBlocksL, tagLabelsL]
  · intro t ts st iht ihts
    simp only [bytecode_from_tags]
    rw [ihts, iht]
    simp [tagBlocksL, tagLabelsL]

theorem write_bytecode_snd (swf : SWF) : (write_bytecode swf).2 = mergedLabels swf := by
  simp [write_bytecode, bytecode_from_tags_eq, mergedLabels]

/-- Claim C4: for every movie clip, the flattener's blocks come in spec
order: the frames' init-bytecode blocks, then the tags' blocks with
`DoAction` contributing one block, `PlaceObject` one block per trigger
bytecode entry, and `DefineSprite` contributing its nested clip's blocks
in place; a declaration block for the merged label table is prepended
exactly when that table is non-empty; and the program is the blocks
joined with exactly one blank line between consecutive blocks. -/
theorem C4_flatten_block_order (swf : SWF) :
    write_bytecode swf =
      (String.intercalate "\n\n"
        ((if mergedLabels swf = [] then [] else [frameLutBlock (mergedLabels swf)]) ++
          (frameBlocks swf.frames ++ tagBlocksL swf.tags)),
       mergedLabels swf) := by
  simp only [write_bytecode, bytecode_from_tags_eq, bytecode_from_frames_eq, List.nil_append,
    mergedLabels]
  by_cases h : tagLabelsL (dictUpdate [] swf.labels) swf.tags = []
  · simp [h]
  · simp [h, List.isEmpty_iff]

/-! ## Dictionary lemmas -/

theorem dictInsert_fresh (acc : List (String × Nat)) (k : String) (v : Nat)
    (h : ∀ p ∈ acc, p.1 ≠ k) : dictInsert acc k v = acc ++ [(k, v)] := by
  have hany : acc.any (fun p => p.1 == k) = false := by
    simp only [List.any_eq_false, beq_iff_eq]
    exact h
  simp [dictInsert, hany]

theorem dictUpdate_append (l : List (String × Nat)) :
    ∀ acc, (l.map Prod.fst).Nodup → (∀ p ∈ acc, ∀ q ∈ l, p.1 ≠ q.1) →
      dictUpdate acc l = acc ++ l := by
  induction l with
  | nil => intro acc _ _; simp [dictUpdate]
  | cons q l ih =>
    intro acc hnodup hdisj
    rw [List.map_cons] at hnodup
    have hhead : q.1 ∉ l.map Prod.fst := (List.nodup_cons.mp hnodup).1
    have htail : (l.map Prod.fst).Nodup := (List.nodup_cons.mp hnodup).2
    have hstep : dictUpdate acc (q :: l) = dictUpdate (acc ++ [q]) l := by
      simp only [dictUpdate, List.foldl_cons]
      rw [dictInsert_fresh acc q.1 q.2 (fun p hp => hdisj p hp q (List.mem_cons_self _ _))]
    have hdisj2 : ∀ p ∈ acc ++ [q], ∀ r ∈ l, p.1 ≠ r.1 := by
      intro p hp r hr
      rcases List.mem_append.mp hp with hp | hp
      · exact hdisj p hp r (List.mem_cons_of_mem _ hr)
      · have hpq : p = q := by simpa using hp
        subst hpq
        intro heq
        exact hhead (heq ▸ List.mem_map_of_mem Prod.fst hr)
    rw [hstep, ih (acc ++ [q]) htail hdisj2]
    simp

theorem dictUpdate_nil (l : List (String × Nat)) (h : (l.map Prod.fst).Nodup) :
    dictUpdate [] l = l := by
  simpa using dictUpdate_append l [] h (by simp)

theorem tagLabelsL_sprite_free (ts : TagList) :
    sprite_free ts = true → ∀ lut, tagLabelsL lut ts = lut := by
  induction ts using sprite_free.induct with
  | case1 => intro _ lut; rfl
  | case2 labels frames tags ts2 => intro h; simp [sprite_free] at h
  | case3 t ts2 hnot ih =>
    intro h lut
    cases t with
    | doAction bc => exact ih (by simpa [sprite_free] using h) lut
    | placeObject triggers => exact ih (by simpa [sprite_free] using h) lut
    | defineSprite labels frames tags => exact (hnot labels frames tags rfl).elim
    | other => exact ih (by simpa [sprite_free] using h) lut

/-- A clip whose single tag is a nested sprite redefining the parent's
label `start` at frame 5. -/
def nestedLabelExample : SWF :=
  ⟨"parent", [("start", 1)], [],
    TagList.cons (Tag.defineSprite [("start", 5)] [] TagList.nil) TagList.nil⟩

/-- A sprite-free clip with two distinct labels and one `DoAction` tag. -/
def plainLabelExample : SWF :=
  ⟨"plain", [("a", 1), ("b", 2)], [], TagList.cons (Tag.doAction "code") TagList.nil⟩

/-- Claim C3: a clip with no nested `DefineSprite` tags flattens to
exactly its own label table, in the same insertion order; and a clip
whose nested sprite redefines a parent label maps that name to the
nested clip's frame index (later-visited merge overwrites the value). -/
theorem C3_flatten_labels :
    (∀ swf : SWF, (swf.labels.map Prod.fst).Nodup → sprite_free swf.tags = true →
      (write_bytecode swf).2 = swf.labels) ∧
    (write_bytecode nestedLabelExample).2 = [("start", 5)] := by
  constructor
  · intro swf hnodup hfree
    rw [write_bytecode_snd, mergedLabels, tagLabelsL_sprite_free _ hfree,
      dictUpdate_nil _ hnodup]
  · rfl

/-- Witness for C3: the sprite-free clip keeps its label table verbatim. -/
theorem C3_flatten_labels_witness :
    (write_bytecode plainLabelExample).2 = [("a", 1), ("b", 2)] :=
  C3_flatten_labels.1 plainLabelExample (by decide) rfl

/-- Claim C9: flattening the empty clip (no tags, no frames, no labels)
yields the empty program and the empty label table, with no declaration
block prepended. -/
theorem C9_flatten_empty_clip :
    write_bytecode ⟨"empty", [], [], TagList.nil⟩ = ("", []) := rfl

/-! ## Normalizer lemmas -/

theorem load_shapes_go_swfs (f : TXP2File) (l : List (Nat × String)) :
    ∀ ns, (load_shapes_go f l ns).1.swfs = ns.swfs := by
  induction l with
  | nil => intro ns; rfl
  | cons p l ih =>
    intro ns
    obtain ⟨i, name⟩ := p
    simp only [load_shapes_go]
    split
    · rfl
    · exact ih _

theorem load_shapes_go_err (f : TXP2File) (l : List (Nat × String)) :
    ∀ ns e, (load_shapes_go f l ns).2 = some e → e = NormError.indexError := by
  induction l with
  | nil => intro ns e h; simp [load_shapes_go] at h
  | cons p l ih =>
    intro ns e h
    obtain ⟨i, name⟩ := p
    simp only [load_shapes_go] at h
    split at h
    · exact (Option.some.inj h).symm
    · exact ih _ _ h

theorem load_regions_go_swfs (f : TXP2File) (l : List (Nat × String)) :
    ∀ ns sheets, (load_regions_go f l ns sheets).1.swfs = ns.swfs := by
  induction l with
  | nil => intro ns sheets; rfl
  | cons p l ih =>
    intro ns sheets
    obtain ⟨i, name⟩ := p
    simp only [load_regions_go]
    split
    · rfl
    · split
      · rfl
      · split
        · rfl
        · split
          · rfl
          · split
            · exact ih _ _
            · exact ih _ _

theorem load_swfs_go_err (f : TXP2File) (l : List (Nat × String)) :
    ∀ ns e, (load_swfs_go f l ns).2 = some e → e = NormError.indexError := by
  induction l with
  | nil => intro ns e h; simp [load_swfs_go] at h
  | cons p l ih =>
    intro ns e h
    obtain ⟨i, name⟩ := p
    simp only [load_swfs_go] at h
    split at h
    · exact (Option.some.inj h).symm
    · exact ih _ _ h

/-- A container whose region map has one entry but whose region table is
empty, so region normalization aborts at index 0; its shape map is
non-empty and is processed before the region pass. -/
def badContainer : TXP2File :=
  ⟨["shape1"], ["shapedata1"], ["region1"], [], [], [], ["clip1"],
    [⟨"clip1", [], [], TagList.nil⟩]⟩

/-- Counterexample to claim C2: normalization of `badContainer` aborts
with the out-of-bounds region error, yet an asset from that container (a
shape) has already been registered into the namespace, contradicting
"no asset ... has been registered". -/
theorem C2_counterexample :
    (loadTXP2 badContainer emptyNamespace).2 = some (NormError.outOfBoundsRegion 0) ∧
    (loadTXP2 badContainer emptyNamespace).1.shapes = [("shape1", "shapedata1")] :=
  ⟨rfl, rfl⟩

/-- Claim C2, amended: when normalization aborts with the out-of-bounds
region `LookupError`, no movie clip from that container has been
registered (the SWF pass never runs); shapes — and textures of earlier,
valid region entries — may already have been registered. -/
theorem C2_abort_no_clip_registered (f : TXP2File) (ns : AssetNamespace) (i : Nat)
    (h : (loadTXP2 f ns).2 = some (NormError.outOfBoundsRegion i)) :
    (loadTXP2 f ns).1.swfs = ns.swfs := by
  have hshapes : (load_shapes f ns).1.swfs = ns.swfs :=
    load_shapes_go_swfs f f.shapemap.enum ns
  cases h2 : (load_shapes f ns).2 with
  | some e =>
    simp only [loadTXP2, andThen, h2] at h
    have he : e = NormError.indexError := load_shapes_go_err f f.shapemap.enum ns e h2
    rw [he] at h
    exact absurd (Option.some.inj h) (by simp)
  | none =>
    have hregions : (load_regions f (load_shapes f ns).1).1.swfs = (load_shapes f ns).1.swfs :=
      load_regions_go_swfs f f.regionmap.enum (load_shapes f ns).1 []
    cases h3 : (load_regions f (load_shapes f ns).1).2 with
    | some e =>
      simp only [loadTXP2, andThen, h2, h3]
      exact hregions.trans hshapes
    | none =>
      simp only [loadTXP2, andThen, h2, h3] at h
      have he : NormError.outOfBoundsRegion i = NormError.indexError :=
        load_swfs_go_err f f.swfmap.enum _ _ h
      exact absurd he (by simp)

/-- Witness for the amended C2: at the concrete aborting container no
movie clip has been registered. -/
theorem C2_abort_witness :
    (loadTXP2 badContainer emptyNamespace).1.swfs = [] :=
  C2_abort_no_clip_registered badContainer emptyNamespace 0 rfl

/-- Claim C6: a region entry resolved against a texture with a decoded
image makes the normalizer register, under the region's logical name,
the crop of the rectangle with each region coordinate halved; the region
`(100, 100, 300, 300)` yields the pixel rectangle `(50, 50)-(150, 150)`. -/
theorem C6_region_crop :
    (∀ (f : TXP2File) (i : Nat) (name : String) (rest : List (Nat × String))
       (ns : AssetNamespace) (sheets sheets2 : List (String × Texture))
       (region : Region) (texturename : String) (tex : Texture) (im : Image),
       f.texture_to_region.get? i = some region →
       f.texturemap.get? region.textureno = some texturename →
       ensure_sheet f sheets texturename = some (tex, sheets2) →
       tex.img = some im →
       load_regions_go f ((i, name) :: rest) ns sheets =
         load_regions_go f rest
           (ns.add_texture name (im.crop (spriteCropRect region))) sheets2) ∧
    (∀ tno : Nat, spriteCropRect ⟨100, 100, 300, 300, tno⟩ = (50, 50, 150, 150)) := by
  constructor
  · intro f i name rest ns sheets sheets2 region texturename tex im h1 h2 h3 h4
    have hlen : ¬ f.texture_to_region.length ≤ i := by
      intro hle
      rw [List.get?_eq_none.mpr hle] at h1
      exact Option.noConfusion h1
    simp only [load_regions_go, if_neg hlen, h1, h2, h3, h4]
  · intro tno
    show (halfCoord 100, halfCoord 100, halfCoord 300, halfCoord 300) = (50, 50, 150, 150)
    decide

/-- The texture sheet of the C6 witness container. -/
def sheetTexture : Texture := ⟨"sheet", some (Image.decoded "sheet")⟩

/-- A container with one region `(100, 100, 300, 300)` on a texture with
a decoded image. -/
def cropContainer : TXP2File :=
  ⟨[], [], ["spritename"], [⟨100, 100, 300, 300, 0⟩], ["sheet"], [sheetTexture], [], []⟩

/-- Witness for C6: the concrete region step registers the halved crop. -/
theorem C6_region_crop_witness :
    load_regions_go cropContainer [(0, "spritename")] emptyNamespace [] =
      load_regions_go cropContainer []
        (emptyNamespace.add_texture "spritename"
          ((Image.decoded "sheet").crop (spriteCropRect ⟨100, 100, 300, 300, 0⟩)))
        [("sheet", sheetTexture)] :=
  C6_region_crop.1 cropContainer 0 "spritename" [] emptyNamespace [] [("sheet", sheetTexture)]
    ⟨100, 100, 300, 300, 0⟩ "sheet" sheetTexture (Image.decoded "sheet") rfl rfl rfl rfl

/-- Claim C10: every halving of region coordinates uses `// 2`, integer
floor division by two: the halved value `q` satisfies `2q ≤ x < 2q + 2`
(so an odd coordinate rounds down), an odd `2k + 1` halves to exactly
`k` (in particular 301 halves to 150, never 151), and the crop rectangle
always consists of integers. -/
theorem C10_floor_halving :
    (∀ x : Int, 2 * halfCoord x ≤ x ∧ x < 2 * halfCoord x + 2) ∧
    (∀ k : Int, halfCoord (2 * k + 1) = k) ∧
    (∀ tno : Nat, spriteCropRect ⟨1, 1, 301, 301, tno⟩ = (0, 0, 150, 150)) := by
  refine ⟨?_, ?_, ?_⟩
  · intro x
    unfold halfCoord
    rw [Int.fdiv_eq_ediv _ (by norm_num)]
    omega
  · intro k
    unfold halfCoord
    rw [Int.fdiv_eq_ediv _ (by norm_num)]
    omega
  · intro tno
    show (halfCoord 1, halfCoord 1, halfCoord 301, halfCoord 301) = (0, 0, 150, 150)
    decide

/-! ## Transform planner claims -/

/-- Claim C1: for positive natural size `(w, h)` and positive forced
ratio `(rx, ry)` whose ratio differs from `w / h` by more than `1e-4`,
the candidates `candidateW = (rx/ry) * h` and `candidateH = w / (rx/ry)`
preserve the area exactly, exactly one of them exceeds its natural axis
(never both, never neither — so both `Impossible aspect ratio!` branches
are unreachable and `adjustAspect` succeeds), and the adjustment
stretches exactly one axis, never shrinking either. -/
theorem C1_aspect_area_invariant (w h rx ry : ℚ)
    (hw : 0 < w) (hh : 0 < h) (hrx : 0 < rx) (hry : 0 < ry)
    (hsep : |w / h - rx / ry| > 1 / 10000) :
    rx / ry * h * (w / (rx / ry)) = w * h ∧
    Xor' (rx / ry * h > w) (w / (rx / ry) > h) ∧
    ∃ w2 h2, adjustAspect w h rx ry = Except.ok (w2, h2) ∧
      w ≤ w2 ∧ h ≤ h2 ∧ ((w < w2 ∧ h2 = h) ∨ (w2 = w ∧ h < h2)) := by
  have hr : 0 < rx / ry := div_pos hrx hry
  have hrne : rx / ry ≠ 0 := ne_of_gt hr
  have hne : w / h ≠ rx / ry :=
    sub_ne_zero.mp (abs_pos.mp ((by norm_num : (0 : ℚ) < 1 / 10000).trans hsep))
  have harea : rx / ry * h * (w / (rx / ry)) = w * h := by
    field_simp
    ring
  have hiff1 : w < rx / ry * h ↔ w / h < rx / ry := (div_lt_iff₀ hh).symm
  have hiff2 : h < w / (rx / ry) ↔ rx / ry < w / h := by
    rw [lt_div_iff₀ hr, lt_div_iff₀ hh, mul_comm]
  rcases lt_or_gt_of_ne hne with hlt | hgt
  · have hcw : w < rx / ry * h := hiff1.mpr hlt
    have hch : ¬ h < w / (rx / ry) := fun hc => absurd (hiff2.mp hc) (asymm hlt)
    refine ⟨harea, Or.inl ⟨hcw, hch⟩, rx / ry * h, h, ?_, le_of_lt hcw, le_refl h,
      Or.inl ⟨hcw, rfl⟩⟩
    simp only [adjustAspect]
    rw [if_neg (by push_neg; exact ⟨hrx, hry⟩)]
    rw [if_pos hsep]
    rw [if_neg (fun hc => absurd hc.1 (not_lt.mpr (le_of_lt hcw)))]
    rw [if_neg (fun hc => hch hc.2)]
    rw [if_pos hcw]
  · have hch : h < w / (rx / ry) := hiff2.mpr hgt
    have hcw : ¬ w < rx / ry * h := fun hc => absurd (hiff1.mp hc) (asymm hgt)
    refine ⟨harea, Or.inr ⟨hch, hcw⟩, w, w / (rx / ry), ?_, le_refl w, le_of_lt hch,
      Or.inr ⟨rfl, hch⟩⟩
    simp only [adjustAspect]
    rw [if_neg (by push_neg; exact ⟨hrx, hry⟩)]
    rw [if_pos hsep]
    rw [if_neg (fun hc => absurd hc.2 (not_lt.mpr (le_of_lt hch)))]
    rw [if_neg (fun hc => hcw hc.1)]
    rw [if_neg hcw]

/-- Witness for C1 at the concrete size `(800, 450)` and ratio `4:3`. -/
theorem C1_aspect_area_invariant_witness :
    (4 : ℚ) / 3 * 450 * (800 / ((4 : ℚ) / 3)) = 800 * 450 ∧
    Xor' ((4 : ℚ) / 3 * 450 > 800) ((800 : ℚ) / ((4 : ℚ) / 3) > 450) ∧
    ∃ w2 h2, adjustAspect 800 450 4 3 = Except.ok (w2, h2) ∧
      (800 : ℚ) ≤ w2 ∧ (450 : ℚ) ≤ h2 ∧
      (((800 : ℚ) < w2 ∧ h2 = 450) ∨ (w2 = 800 ∧ (450 : ℚ) < h2)) :=
  C1_aspect_area_invariant 800 450 4 3 (by norm_num) (by norm_num) (by norm_num) (by norm_num)
    (by rw [show |(800 : ℚ) / 450 - 4 / 3| = 4 / 9 by rw [abs_of_pos] <;> norm_num]; norm_num)

/-- Claim C7: the natural size `(800, 450)` with forced aspect `4:3` and
scale factors `1, 1` keeps the width at 800, stretches the height to 600
and yields the transform `a = 1`, `d = 600/450 = 4/3`,
`b = c = tx = ty = 0`. -/
theorem C7_concrete_transform :
    planTransform 800 450 (some (4, 3)) 1 1 = Except.ok ⟨1, 0, 0, 4 / 3, 0, 0⟩ := by
  have habs : |(800 : ℚ) / 450 - 4 / 3| = 4 / 9 := by
    rw [abs_of_pos] <;> norm_num
  have hadj : adjustAspect 800 450 4 3 = Except.ok ((800 : ℚ), 600) := by
    simp only [adjustAspect, habs]
    norm_num
  simp only [planTransform, hadj]
  norm_num [Matrix.mk.injEq]

/-! ## Export planner claims -/

/-- Claim C5: a non-empty frame sequence exported to a format that is
not multi-frame-capable yields one still artifact per frame in order,
named by the fixed base name, a dash, and the frame index zero-padded to
width `floor(log10(frameCount)) + 1`; 12 frames pad to 2 digits
(`00`...`11`) and 5 frames to 1 digit (`0`...`4`). -/
theorem C5_export_padding :
    (∀ (output fmt : String) (duration : Nat) (images : List Image),
       images ≠ [] → fmt ≠ "GIF" → fmt ≠ "WEBP" →
       exportFrames output fmt duration images =
         Except.ok (images.enum.map (fun p =>
           Artifact.still
             (output.dropRight 4 ++ "-" ++ zeroPad p.1 (padWidth images.length) ++
               output.takeRight 4) p.2))) ∧
    padWidth 12 = 2 ∧ padWidth 5 = 1 ∧
    (List.range 12).map (fun i => zeroPad i (padWidth 12)) =
      ["00", "01", "02", "03", "04", "05", "06", "07", "08", "09", "10", "11"] ∧
    (List.range 5).map (fun i => zeroPad i (padWidth 5)) = ["0", "1", "2", "3", "4"] := by
  have hl12 : Nat.log 10 12 = 1 := Nat.log_eq_of_pow_le_of_lt_pow (by norm_num) (by norm_num)
  have hl5 : Nat.log 10 5 = 0 := Nat.log_eq_of_pow_le_of_lt_pow (by norm_num) (by norm_num)
  have h12 : padWidth 12 = 2 := by rw [padWidth, hl12]
  have h5 : padWidth 5 = 1 := by rw [padWidth, hl5]
  refine ⟨?_, h12, h5, by rw [h12]; decide, by rw [h5]; decide⟩
  intro output fmt duration images hne hgif hwebp
  have hlen : ¬ images.length = 0 := by simpa [List.length_eq_zero] using hne
  have hfmt : ¬ (fmt = "GIF" ∨ fmt = "WEBP") := by
    rintro (hc | hc)
    · exact hgif hc
    · exact hwebp hc
  simp only [exportFrames, if_neg hlen, if_neg hfmt, if_pos (Nat.pos_of_ne_zero hlen)]

/-- Two decoded frames, used as a concrete rendered frame sequence. -/
def sampleImages : List Image := [Image.decoded "f0", Image.decoded "f1"]

/-- Witness for C5: two frames into PNG produce `out-0.png`, `out-1.png`. -/
theorem C5_export_padding_witness :
    exportFrames "out.png" "PNG" 50 sampleImages =
      Except.ok [Artifact.still "out-0.png" (Image.decoded "f0"),
        Artifact.still "out-1.png" (Image.decoded "f1")] :=
  (C5_export_padding.1 "out.png" "PNG" 50 sampleImages (by simp [sampleImages])
      (by simp) (by simp)).trans
    (by
      have hl2 : Nat.log 10 2 = 0 := Nat.log_eq_of_pow_le_of_lt_pow (by norm_num) (by norm_num)
      rw [show padWidth sampleImages.length = 1 from by rw [padWidth]; rw [show sampleImages.length = 2 from rfl, hl2]]
      rfl)

/-- Claim C8: a render with zero frames fails with the empty-result
error and produces no artifact; a non-empty sequence in a multi-frame
format (GIF or WEBP) produces exactly one artifact holding every frame
in order with the given per-frame duration. -/
theorem C8_export_empty_and_animation :
    (∀ (output fmt : String) (duration : Nat),
       exportFrames output fmt duration [] = Except.error "Did not render any frames!") ∧
    (∀ (output fmt : String) (duration : Nat) (images : List Image),
       images ≠ [] → (fmt = "GIF" ∨ fmt = "WEBP") →
       exportFrames output fmt duration images =
         Except.ok [Artifact.animation output images duration]) := by
  constructor
  · intro output fmt duration; rfl
  · intro output fmt duration images hne hfmt
    have hlen : ¬ images.length = 0 := by simpa [List.length_eq_zero] using hne
    simp only [exportFrames, if_neg hlen, if_pos hfmt]

/-- Witness for C8: two frames into GIF produce one animated artifact. -/
theorem C8_export_witness :
    exportFrames "out.gif" "GIF" 33 sampleImages =
      Except.ok [Artifact.animation "out.gif" sampleImages 33] :=
  C8_export_empty_and_animation.2 "out.gif" "GIF" 33 sampleImages
    (by simp [sampleImages]) (Or.inl rfl)

end AfpUtils
